import Mathlib

/-!
Shallow embedding of the `ask` prompting library (src/ask.ts).

The library runs an unbounded retry loop: build an attempt context,
resolve the question specification (literal string with options, or a
generator callback receiving the context and the properties bag), read a
line from the readline interface, optionally trim it, optionally format
it, then compute an acceptance verdict; the loop returns the transformed
answer of the first accepted attempt.

Modelling choices:
- The readline interface is modelled as a finite list of input lines
  (the fake channel of the testable properties); reading past its end is
  the channel-failure error of the failure semantics.
- A callback that may throw (or return a rejected promise) is modelled
  as a function into `Except JsError`; awaiting a promise and using an
  immediate value coincide after sequentialization, so a promised
  boolean from `accept` is its settled `Except JsError Bool`.
- Undefined `options` in `ask(question)` is represented by the record
  with every field undefined (`AskOptions.noOpts`), since spreading
  `undefined` in `{ ...options, question }` yields the empty record.
- Side effects on the session are collected as an explicit event trace
  (`Event.read`, `Event.close`, `Event.init`, `Event.hook`); the hook
  constructor is part of the alphabet so that statements about lifecycle
  hooks can be expressed, even though no source line emits one.
-/

namespace Ask

/-- Errors that can surface from a run: the channel failing (stream
closed before a line could be read) or a user callback throwing /
its promise rejecting. -/
inductive JsError where
  | channelClosed
  | userError (msg : String)
deriving DecidableEq

/-- Callback context for Ask (src/types.ts `AskCallbackContext`):
the current prompt attempt (starts at 0) and the previous answer
(empty string for the first iteration). -/
structure AskCallbackContext where
  iteration : Nat
  previousAnswer : String
deriving DecidableEq

/-- The `accept` option of `AskOptions`: `boolean | string[] |
((answer: string) => boolean | Promise<boolean>)`, or absent
(`undefined`). -/
inductive AcceptOption where
  | undef
  | bool (b : Bool)
  | list (xs : List String)
  | fn (f : String → Except JsError Bool)

/-- Ask options (src/types.ts `AskOptions`): `accept`, `trim`, and the
optional `format(answer, context)` callback (which may throw). -/
structure AskOptions where
  accept : AcceptOption
  trim : Bool
  format : Option (String → AskCallbackContext → Except JsError String)

/-- The record representing absent options: every field undefined. -/
def AskOptions.noOpts : AskOptions :=
  { accept := .undef, trim := false, format := none }

/-- Ask options together with the question string (src/types.ts
`AskOptionsWithQuestion`). -/
structure AskOptionsWithQuestion extends AskOptions where
  question : String

/-- The question argument of `main`: a literal string (with separately
supplied options) or a generator callback `(context, props) =>
AskOptionsWithQuestion`. -/
inductive Question (P : Type) where
  | str (question : String) (options : AskOptions)
  | cb (f : AskCallbackContext → P → AskOptionsWithQuestion)

/-- Resolution of the options for one iteration (ask.ts lines 33-36):
`typeof question === 'function' ? question(context, props) :
{ ...options, question }`. -/
def resolveOpts {P : Type} (question : Question P) (props : P)
    (context : AskCallbackContext) : AskOptionsWithQuestion :=
  match question with
  | .cb f => f context props
  | .str q o => { toAskOptions := o, question := q }

/-- The answer-transformation block of one iteration (ask.ts lines
40-46): trim when `opts.trim` is set, then apply `opts.format` (which
receives the possibly trimmed answer and the context) when present. -/
def transform (opts : AskOptions) (context : AskCallbackContext)
    (answer0 : String) : Except JsError String :=
  let answer := if opts.trim then answer0.trim else answer0
  match opts.format with
  | some f => f answer context
  | none => Except.ok answer

/-- The acceptance verdict of one iteration (ask.ts lines 49-55):
`typeof accept === 'boolean' ? accept : typeof accept === 'function'
? accept(answer) : !Array.isArray(accept) || accept.includes(answer)`,
with the function result awaited (line 56). -/
def checkAccept (accept : AcceptOption) (answer : String) :
    Except JsError Bool :=
  match accept with
  | .bool b => Except.ok b
  | .fn f => f answer
  | .list xs => Except.ok (xs.contains answer)
  | .undef => Except.ok true

/-- One completed iteration after the raw line `raw` was read: resolve
the options for the context `⟨iteration, prev⟩`, transform the raw
answer, compute the verdict. Returns the transformed answer and the
verdict, or the first error thrown. -/
def attemptStep {P : Type} (props : P) (question : Question P)
    (iteration : Nat) (prev raw : String) :
    Except JsError (String × Bool) :=
  let context : AskCallbackContext := ⟨iteration, prev⟩
  let opts := resolveOpts question props context
  match transform opts.toAskOptions context raw with
  | .error e => Except.error e
  | .ok a =>
    match checkAccept opts.accept a with
    | .error e => Except.error e
    | .ok v => Except.ok (a, v)

/-- Props recorded for one iteration: the generator callback receives
`props` exactly when the question is a callback (ask.ts line 35). -/
def cbPropsStep {P : Type} (question : Question P) (props : P) : List P :=
  match question with
  | .cb _ => [props]
  | .str _ _ => []

/-- Instrumented outcome of a `main` run: the settled result, the
number of completed line reads, the attempt contexts in order, the
transformed answers of the attempts whose transform and verdict
completed without error, and the props value passed at each generator
invocation. -/
structure RunResult (P : Type) where
  outcome : Except JsError String
  reads : Nat
  contexts : List AskCallbackContext
  transformed : List String
  cbProps : List P

/-- The retry loop of `main` (ask.ts lines 26-60), driven by the list
of channel lines. Each iteration builds the context, resolves the
options (invoking the generator when the question is a callback), reads
one line (failing with `channelClosed` when the channel is exhausted),
transforms it and computes the verdict; it stops on acceptance or on a
thrown error, and otherwise retries with `iteration + 1` and the
transformed answer as the next `previousAnswer`. -/
def mainGo {P : Type} (props : P) (question : Question P) :
    Nat → String → List String → RunResult P
  | iteration, prev, [] =>
    { outcome := Except.error .channelClosed, reads := 0,
      contexts := [⟨iteration, prev⟩], transformed := [],
      cbProps := cbPropsStep question props }
  | iteration, prev, raw :: rest =>
    match attemptStep props question iteration prev raw with
    | .error e =>
      { outcome := Except.error e, reads := 1,
        contexts := [⟨iteration, prev⟩], transformed := [],
        cbProps := cbPropsStep question props }
    | .ok (a, true) =>
      { outcome := Except.ok a, reads := 1,
        contexts := [⟨iteration, prev⟩], transformed := [a],
        cbProps := cbPropsStep question props }
    | .ok (a, false) =>
      let r := mainGo props question (iteration + 1) a rest
      { outcome := r.outcome, reads := r.reads + 1,
        contexts := ⟨iteration, prev⟩ :: r.contexts,
        transformed := a :: r.transformed,
        cbProps := cbPropsStep question props ++ r.cbProps }

/-- Entry point of the loop (ask.ts lines 26-28): `answer = ''` and
`iteration = 0`. -/
def main {P : Type} (props : P) (question : Question P)
    (inputs : List String) : RunResult P :=
  mainGo props question 0 "" inputs

/-- Session events observable on the readline interface, plus the call
to the scope-level `init` and the (never emitted) lifecycle hooks. -/
inductive Event where
  | read
  | close
  | init
  | hook (name : String)
deriving DecidableEq

/-- Event trace of one call through `createAskFunction` (ask.ts lines
73-86): the reads performed by `main`, then — in the `finally` block,
on success and on error alike — one close exactly when the `close` flag
is set. -/
def askFunctionEvents {P : Type} (c : Bool) (r : RunResult P) :
    List Event :=
  List.replicate r.reads Event.read ++ (if c then [Event.close] else [])

/-- The value a scoped callback produced: a plain (non-promise) value,
or a promise that later settles with a value or a rejection. -/
inductive JsValue (R : Type) where
  | plain (v : R)
  | promise (settled : Except JsError R)

/-- How the scoped callback finished at the call site: it threw
synchronously, or it returned a `JsValue`. -/
inductive CallbackOutcome (R : Type) where
  | thrown (e : JsError)
  | returned (v : JsValue R)

/-- The `result instanceof Promise` test of ask.ts lines 112 and 116;
`none` is the `undefined` left when the callback threw synchronously. -/
def isPromiseResult {R : Type} : Option (JsValue R) → Bool
  | some (.promise _) => true
  | some (.plain _) => false
  | none => false

/-- Close events of `ask.scoped` (ask.ts lines 105-118): the `finally`
block closes the interface when `result` is not a promise (including
the synchronous-throw path, where `result` is still `undefined`), and
when `result` is a promise, `result.catch(() => {}).finally(() =>
rl.close())` closes it once the promise settles, fulfilled or
rejected. -/
def scopedCloseEvents {R : Type} (outcome : CallbackOutcome R) :
    List Event :=
  let result : Option (JsValue R) :=
    match outcome with
    | .thrown _ => none
    | .returned v => some v
  (if isPromiseResult result then [] else [Event.close]) ++
    (if isPromiseResult result then [Event.close] else [])

/-- Model of one `ask.scoped(callback)` invocation (ask.ts lines
101-120): `init` is called once for the scope (line 102, the single
`Event.init`); the callback receives the bound ask function
`createAskFunction(() => props, false)` and `props`, and the calls it
makes through the bound function are the `blockCalls` (each run with
the same `props` and with the close flag `false`); the callback then
finishes as `blockOutcome props` and the interface is closed per
`scopedCloseEvents`. Returns the full event trace and the run results
of the nested calls. -/
def scopedRun {P R : Type} (init : Unit → P)
    (blockCalls : P → List (Question P × List String))
    (blockOutcome : P → CallbackOutcome R) :
    List Event × List (RunResult P) :=
  let props := init ()
  let runs := (blockCalls props).map (fun c => main props c.1 c.2)
  (Event.init ::
      ((runs.map (askFunctionEvents false)).flatten ++
        scopedCloseEvents (blockOutcome props)),
    runs)

/-- Decidable description of a run shape: starting at iteration `it`
with previous answer `prev`, the first `k` attempts complete with a
rejected verdict and attempt `k` completes accepted, its transformed
answer being `ans`. -/
def acceptedAt {P : Type} (props : P) (question : Question P) :
    Nat → String → List String → Nat → String → Bool
  | _, _, [], _, _ => false
  | it, prev, raw :: _rest, 0, ans =>
    match attemptStep props question it prev raw with
    | .ok (a, true) => a == ans
    | _ => false
  | it, prev, raw :: rest, k + 1, ans =>
    match attemptStep props question it prev raw with
    | .ok (a, false) => acceptedAt props question (it + 1) a rest k ans
    | _ => false

/-- Decidable description of a run shape: starting at iteration `it`
with previous answer `prev`, the first `k` attempts complete with a
rejected verdict and attempt `k` throws the error `e` from its
`format` or `accept` callback. -/
def erroredAt {P : Type} (props : P) (question : Question P) :
    Nat → String → List String → Nat → JsError → Bool
  | _, _, [], _, _ => false
  | it, prev, raw :: _rest, 0, e =>
    match attemptStep props question it prev raw with
    | .error e2 => e2 == e
    | .ok _ => false
  | it, prev, raw :: rest, k + 1, e =>
    match attemptStep props question it prev raw with
    | .ok (a, false) => erroredAt props question (it + 1) a rest k e
    | _ => false

/-- The condition named by the spec for the non-boolean, non-function
forms: the value is a defined array of strings that does not contain
the answer. -/
def definedArrayNotContaining (accept : AcceptOption) (answer : String) :
    Bool :=
  match accept with
  | .list xs => !(xs.contains answer)
  | _ => false

/-- Acceptance verdict as the spec words it: if `accept` is a boolean,
that boolean; if a function, its (awaited) result on the transformed
answer; otherwise the verdict is true unless `accept` is a defined
array of strings that does not contain the transformed answer. -/
def acceptVerdictSpec (accept : AcceptOption) (answer : String) :
    Except JsError Bool :=
  match accept with
  | .bool b => Except.ok b
  | .fn f => f answer
  | other => Except.ok (!(definedArrayNotContaining other answer))

/-- Sample options: the accept list of the README scenario. -/
def exOptsYN : AskOptions :=
  { accept := .list ["y", "n"], trim := false, format := none }

/-- Sample question of the README scenario, over the default props. -/
def exQYN : Question Unit := Question.str "Continue [y/n]: " exOptsYN

/-- Sample options with a format callback that appends a marker. -/
def exOptsFmt : AskOptions :=
  { accept := .undef, trim := false,
    format := some (fun a _ => Except.ok (a ++ "bar")) }

/-- Sample options whose format callback always throws. -/
def exOptsBoom : AskOptions :=
  { accept := .undef, trim := false,
    format := some (fun _ _ => Except.error (.userError "boom")) }

/-- Sample options with the empty accept list. -/
def exOptsEmptyList : AskOptions :=
  { accept := .list [], trim := false, format := none }

/-- Sample generator question over `Nat` props: asks a fixed question
and accepts anything. -/
def exQCb : Question Nat :=
  Question.cb (fun _ _ =>
    { accept := .bool true, trim := false, format := none,
      question := "Q: " })

/-- Sample init callback for a scoped run over `Nat` props. -/
def exInit : Unit → Nat := fun _ => 7

/-- Sample block: a single call of `exQCb` against a one-line channel. -/
def exBlockCalls : Nat → List (Question Nat × List String) :=
  fun _ => [(exQCb, ["a"])]

/-- Sample block outcome: the block returns a plain value. -/
def exBlockOutcome : Nat → CallbackOutcome Nat :=
  fun _ => CallbackOutcome.returned (JsValue.plain 0)

deriving instance DecidableEq for Except

/-- Loop lemma: from any loop state, when the first `k` attempts are
rejected and attempt `k` is accepted with transformed answer `ans`,
the loop returns `ans` after exactly `k + 1` reads. -/
theorem mainGo_acceptedAt {P : Type} (props : P) (question : Question P)
    (ans : String) :
    ∀ (k it : Nat) (prev : String) (ins : List String),
      acceptedAt props question it prev ins k ans = true →
      (mainGo props question it prev ins).outcome = Except.ok ans ∧
      (mainGo props question it prev ins).reads = k + 1 := by
  intro k
  induction k with
  | zero =>
    intro it prev ins h
    match ins with
    | [] => simp [acceptedAt] at h
    | raw :: rest =>
      cases hstep : attemptStep props question it prev raw with
      | error e => simp [acceptedAt, hstep] at h
      | ok av =>
        obtain ⟨a, v⟩ := av
        cases v with
        | false => simp [acceptedAt, hstep] at h
        | true =>
          simp [acceptedAt, hstep] at h
          subst h
          simp [mainGo, hstep]
  | succ k ih =>
    intro it prev ins h
    match ins with
    | [] => simp [acceptedAt] at h
    | raw :: rest =>
      cases hstep : attemptStep props question it prev raw with
      | error e => simp [acceptedAt, hstep] at h
      | ok av =>
        obtain ⟨a, v⟩ := av
        cases v with
        | true => simp [acceptedAt, hstep] at h
        | false =>
          simp only [acceptedAt, hstep] at h
          have hrec := ih (it + 1) a rest h
          simp [mainGo, hstep, hrec.1, hrec.2]

/-- C1: for every sequence of inputs whose first `k` transformed
answers are rejected by the accept verdict while the `(k+1)`-th is
accepted, one call of the `main` retry loop performs exactly `k + 1`
line reads against the session and returns the transformed form of the
final, accepted read. -/
theorem retry_loop_reads_and_returns {P : Type} (props : P)
    (question : Question P) (ins : List String) (k : Nat) (ans : String)
    (h : acceptedAt props question 0 "" ins k ans = true) :
    (main props question ins).outcome = Except.ok ans ∧
    (main props question ins).reads = k + 1 :=
  mainGo_acceptedAt props question ans k 0 "" ins h

/-- Witness for C1: against the channel `["foo", "y"]` with accept list
`["y", "n"]`, one rejection is followed by acceptance of `"y"`, and the
loop reads twice and returns `"y"`. -/
theorem retry_loop_reads_and_returns_witness :
    acceptedAt () exQYN 0 "" ["foo", "y"] 1 "y" = true ∧
    ((main () exQYN ["foo", "y"]).outcome = Except.ok "y" ∧
      (main () exQYN ["foo", "y"]).reads = 2) :=
  ⟨by decide, retry_loop_reads_and_returns () exQYN ["foo", "y"] 1 "y"
    (by decide)⟩

/-- C2: the acceptance verdict of every iteration is computed as the
spec describes: a boolean `accept` is the verdict itself; a function is
invoked with the transformed answer and its (awaited) result is the
verdict; otherwise the verdict is true unless `accept` is a defined
array of strings that does not contain the transformed answer — and
for a defined array the positive verdict coincides with membership. -/
theorem accept_verdict_cases (accept : AcceptOption) (answer : String) :
    checkAccept accept answer = acceptVerdictSpec accept answer ∧
    (∀ xs : List String,
      (checkAccept (.list xs) answer = Except.ok true ↔ answer ∈ xs)) ∧
    checkAccept .undef answer = Except.ok true := by
  refine ⟨?_, ?_, rfl⟩
  · cases accept with
    | undef => rfl
    | bool b => rfl
    | fn f => rfl
    | list xs =>
      simp [checkAccept, acceptVerdictSpec, definedArrayNotContaining]
  · intro xs
    simp [checkAccept]

/-- Helper: the trace of a non-closing bound ask call consists of read
events only, so any other event occurs zero times in it. -/
theorem askFunctionEvents_false_count {P : Type} (r : RunResult P)
    (e : Event) (he : e ≠ Event.read) :
    (askFunctionEvents false r).count e = 0 := by
  rw [List.count_eq_zero]
  simp [askFunctionEvents, List.mem_replicate]
  intro _
  exact he

/-- Helper: the concatenated traces of the bound ask calls of a scoped
block contain no event other than reads. -/
theorem flatten_bound_ask_count {P : Type} (runs : List (RunResult P))
    (e : Event) (he : e ≠ Event.read) :
    ((runs.map (askFunctionEvents false)).flatten.count e) = 0 := by
  induction runs with
  | nil => simp
  | cons r rest ih =>
    simp only [List.map_cons, List.flatten_cons, List.count_append, ih]
    rw [askFunctionEvents_false_count r e he]

/-- Helper: the closing part of the scoped trace holds exactly one
close event, on the synchronous-value, synchronous-throw and promise
paths alike. -/
theorem scopedCloseEvents_count_close {R : Type}
    (outcome : CallbackOutcome R) :
    (scopedCloseEvents outcome).count Event.close = 1 := by
  cases outcome with
  | thrown e => rfl
  | returned v => cases v with
    | plain v0 => rfl
    | promise s => rfl

/-- C3: the session allocated by `ask.scoped` for a block is closed
exactly once after the block settles — whether the block throws
synchronously, returns a plain value, or returns a promise that is
eventually fulfilled or rejected — and a call through the bound ask
function handed to the block (close flag `false`) never emits a close
event of its own. -/
theorem scoped_session_closed_once {P R : Type} (init : Unit → P)
    (blockCalls : P → List (Question P × List String))
    (blockOutcome : P → CallbackOutcome R) :
    ((scopedRun init blockCalls blockOutcome).1.count Event.close = 1) ∧
    (∀ (props : P) (question : Question P) (ins : List String),
      (askFunctionEvents false (main props question ins)).count
        Event.close = 0) := by
  constructor
  · simp only [scopedRun, List.count_cons, List.count_append]
    rw [flatten_bound_ask_count _ Event.close (by simp),
      scopedCloseEvents_count_close]
    simp
  · intro props question ins
    exact askFunctionEvents_false_count _ Event.close (by simp)

/-- Loop lemma: from loop state `(it, prev)`, the contexts created by
the loop carry the consecutive iteration numbers starting at `it`, and
their previous answers are `prev` followed by the transformed answers
of the preceding attempts. -/
theorem mainGo_contexts_spec {P : Type} (props : P)
    (question : Question P) :
    ∀ (ins : List String) (it : Nat) (prev : String),
      ((mainGo props question it prev ins).contexts.map
          AskCallbackContext.iteration
        = List.range' it (mainGo props question it prev ins).contexts.length) ∧
      ((mainGo props question it prev ins).contexts.map
          AskCallbackContext.previousAnswer
        = (prev :: (mainGo props question it prev ins).transformed).take
            (mainGo props question it prev ins).contexts.length) := by
  intro ins
  induction ins with
  | nil => intro it prev; simp [mainGo]
  | cons raw rest ih =>
    intro it prev
    cases hstep : attemptStep props question it prev raw with
    | error e => simp [mainGo, hstep]
    | ok av =>
      obtain ⟨a, v⟩ := av
      cases v with
      | true => simp [mainGo, hstep]
      | false =>
        have h2 := ih (it + 1) a
        simp only [mainGo, hstep, List.map_cons, List.length_cons]
        constructor
        · rw [List.range'_succ, h2.1]
        · rw [List.take_succ_cons, h2.2]

/-- C4: within a single call, the attempt contexts carry iteration
numbers `0, 1, 2, ...` (one more per retry), and the previous answer
of each context is the transformed answer produced by the preceding
attempt, the empty string for the first attempt. -/
theorem attempt_context_invariants {P : Type} (props : P)
    (question : Question P) (ins : List String) :
    ((main props question ins).contexts.map AskCallbackContext.iteration
      = List.range (main props question ins).contexts.length) ∧
    ((main props question ins).contexts.map
        AskCallbackContext.previousAnswer
      = ("" :: (main props question ins).transformed).take
          (main props question ins).contexts.length) := by
  have h := mainGo_contexts_spec props question ins 0 ""
  rw [List.range_eq_range' (main props question ins).contexts.length]
  exact h

/-- Loop lemma: when the loop returns an accepted answer, that answer
is the last entry of the transformed-answer trace. -/
theorem mainGo_outcome_getLast {P : Type} (props : P)
    (question : Question P) :
    ∀ (ins : List String) (it : Nat) (prev a : String),
      (mainGo props question it prev ins).outcome = Except.ok a →
      (mainGo props question it prev ins).transformed.getLast? = some a := by
  intro ins
  induction ins with
  | nil => intro it prev a h; simp [mainGo] at h
  | cons raw rest ih =>
    intro it prev a h
    cases hstep : attemptStep props question it prev raw with
    | error e => simp [mainGo, hstep] at h
    | ok av =>
      obtain ⟨a2, v⟩ := av
      cases v with
      | true =>
        simp [mainGo, hstep] at h
        subst h
        simp [mainGo, hstep]
      | false =>
        simp only [mainGo, hstep] at h ⊢
        have h3 := ih (it + 1) a2 a h
        cases htr : (mainGo props question (it + 1) a2 rest).transformed with
        | nil => rw [htr] at h3; simp at h3
        | cons b l =>
          rw [htr] at h3
          rw [List.getLast?_cons_cons]
          exact h3

/-- Loop lemma: the first context created by the loop from state
`(it, prev)` is `⟨it, prev⟩`, whatever the channel holds. -/
theorem mainGo_contexts_head {P : Type} (props : P)
    (question : Question P) (ins : List String) (it : Nat)
    (prev : String) :
    ∃ t, (mainGo props question it prev ins).contexts
      = ⟨it, prev⟩ :: t := by
  cases ins with
  | nil => exact ⟨[], rfl⟩
  | cons raw rest =>
    cases hstep : attemptStep props question it prev raw with
    | error e => simp [mainGo, hstep]
    | ok av =>
      obtain ⟨a, v⟩ := av
      cases v with
      | true => simp [mainGo, hstep]
      | false => simp [mainGo, hstep]

/-- C5: the trim step strips whitespace before the `format` function is
applied; `format` receives the possibly trimmed answer together with
the attempt context; its return value fully replaces the answer, both
as the value the loop returns on acceptance and as the previous answer
of the next attempt context after a rejection. -/
theorem trim_format_replaces_answer {P : Type} (props : P)
    (question : Question P) :
    (∀ (opts : AskOptions) (context : AskCallbackContext) (raw : String),
      transform opts context raw =
        match opts.format with
        | some f => f (if opts.trim then raw.trim else raw) context
        | none => Except.ok (if opts.trim then raw.trim else raw)) ∧
    (∀ (ins : List String) (a : String),
      (main props question ins).outcome = Except.ok a →
      (main props question ins).transformed.getLast? = some a) ∧
    (∀ (it : Nat) (prev raw a : String) (rest : List String),
      attemptStep props question it prev raw = Except.ok (a, false) →
      ((mainGo props question it prev (raw :: rest)).contexts)[1]?
        = some ⟨it + 1, a⟩) := by
  refine ⟨fun opts context raw => rfl, ?_, ?_⟩
  · intro ins a h
    exact mainGo_outcome_getLast props question ins 0 "" a h
  · intro it prev raw a rest hstep
    obtain ⟨t, ht⟩ := mainGo_contexts_head props question rest (it + 1) a
    simp [mainGo, hstep, ht]

/-- Witness for C5: a format callback that appends a marker yields the
formatted answer as the returned value, and after a rejection the next
context carries the formatted answer of the previous attempt. -/
theorem trim_format_replaces_answer_witness :
    transform exOptsFmt ⟨0, ""⟩ "Foo" =
      (match exOptsFmt.format with
        | some f => f (if exOptsFmt.trim then "Foo".trim else "Foo") ⟨0, ""⟩
        | none =>
          Except.ok (if exOptsFmt.trim then "Foo".trim else "Foo")) ∧
    ((main () exQYN ["foo", "y"]).outcome = Except.ok "y" ∧
      (main () exQYN ["foo", "y"]).transformed.getLast? = some "y") ∧
    ((mainGo () exQYN 0 "" ["foo", "y"]).contexts)[1]? = some ⟨1, "foo"⟩ :=
  ⟨(trim_format_replaces_answer () exQYN).1 exOptsFmt ⟨0, ""⟩ "Foo",
    ⟨by decide,
      (trim_format_replaces_answer () exQYN).2.1 ["foo", "y"] "y"
        (by decide)⟩,
    (trim_format_replaces_answer () exQYN).2.2 0 "" "foo" "foo" ["y"]
      (by decide)⟩

/-- C6 (evaluating the code): no execution path of the library emits a
lifecycle hook event — neither a single-shot ask call (with or without
the close flag) nor a scoped run produces `Event.hook` for any hook
name, because no source line of ask.ts reads an `on` option and the
`AskOptions` declaration has no such field; the hooks exist only in the
README. -/
theorem no_hook_events_emitted {P R : Type} (c : Bool) (props : P)
    (question : Question P) (ins : List String) (n : String)
    (init : Unit → P)
    (blockCalls : P → List (Question P × List String))
    (blockOutcome : P → CallbackOutcome R) :
    ((askFunctionEvents c (main props question ins)).count
      (Event.hook n) = 0) ∧
    ((scopedRun init blockCalls blockOutcome).1.count (Event.hook n) = 0)
    := by
  constructor
  · cases c with
    | false => exact askFunctionEvents_false_count _ _ (by simp)
    | true =>
      rw [List.count_eq_zero]
      simp [askFunctionEvents, List.mem_replicate]
  · simp only [scopedRun, List.count_cons, List.count_append]
    rw [flatten_bound_ask_count _ _ (by simp)]
    have hc : (scopedCloseEvents (blockOutcome (init ()))).count
        (Event.hook n) = 0 := by
      rw [List.count_eq_zero]
      cases blockOutcome (init ()) with
      | thrown e => simp [scopedCloseEvents, isPromiseResult]
      | returned v => cases v with
        | plain v0 => simp [scopedCloseEvents, isPromiseResult]
        | promise s => simp [scopedCloseEvents, isPromiseResult]
    rw [hc]
    simp

/-- Loop lemma: when the first `k` attempts are rejected and attempt
`k` throws `e` from its `format` or `accept` callback, the loop
propagates `e` after exactly `k + 1` reads. -/
theorem mainGo_erroredAt {P : Type} (props : P) (question : Question P)
    (e : JsError) :
    ∀ (k it : Nat) (prev : String) (ins : List String),
      erroredAt props question it prev ins k e = true →
      (mainGo props question it prev ins).outcome = Except.error e ∧
      (mainGo props question it prev ins).reads = k + 1 := by
  intro k
  induction k with
  | zero =>
    intro it prev ins h
    match ins with
    | [] => simp [erroredAt] at h
    | raw :: rest =>
      cases hstep : attemptStep props question it prev raw with
      | ok av => simp [erroredAt, hstep] at h
      | error e2 =>
        simp [erroredAt, hstep] at h
        subst h
        simp [mainGo, hstep]
  | succ k ih =>
    intro it prev ins h
    match ins with
    | [] => simp [erroredAt] at h
    | raw :: rest =>
      cases hstep : attemptStep props question it prev raw with
      | error e2 => simp [erroredAt, hstep] at h
      | ok av =>
        obtain ⟨a, v⟩ := av
        cases v with
        | true => simp [erroredAt, hstep] at h
        | false =>
          simp only [erroredAt, hstep] at h
          have hrec := ih (it + 1) a rest h
          simp [mainGo, hstep, hrec.1, hrec.2]

/-- C7: when the `format` or `accept` callback of attempt `k` throws
(or its promise rejects) with error `e` after `k` rejected attempts,
the error propagates to the caller as the settled outcome, the loop
performs no read beyond the `k + 1` already done, and the single-shot
ask call (close flag `true`) still closes its session exactly once on
this error path. -/
theorem callback_error_aborts_loop {P : Type} (props : P)
    (question : Question P) (ins : List String) (k : Nat) (e : JsError)
    (h : erroredAt props question 0 "" ins k e = true) :
    (main props question ins).outcome = Except.error e ∧
    (main props question ins).reads = k + 1 ∧
    (askFunctionEvents true (main props question ins)).count
      Event.close = 1 := by
  have hm := mainGo_erroredAt props question e k 0 "" ins h
  refine ⟨hm.1, hm.2, ?_⟩
  simp only [askFunctionEvents, List.count_append, if_pos rfl]
  rw [List.count_eq_zero.mpr]
  · rfl
  · simp [List.mem_replicate]

/-- Witness for C7: a format callback that always throws aborts the
loop at the first attempt with one read, and the owning single-shot
call still emits exactly one close. -/
theorem callback_error_aborts_loop_witness :
    erroredAt () (Question.str "Q: " exOptsBoom) 0 "" ["x", "y"] 0
      (JsError.userError "boom") = true ∧
    ((main () (Question.str "Q: " exOptsBoom) ["x", "y"]).outcome
        = Except.error (JsError.userError "boom") ∧
      (main () (Question.str "Q: " exOptsBoom) ["x", "y"]).reads = 1 ∧
      (askFunctionEvents true
        (main () (Question.str "Q: " exOptsBoom) ["x", "y"])).count
          Event.close = 1) :=
  ⟨by decide, callback_error_aborts_loop () (Question.str "Q: " exOptsBoom)
    ["x", "y"] 0 (JsError.userError "boom") (by decide)⟩

/-- C8: `ask("Continue [y/n]: ", { accept: ["y","n"] })` against the
channel `["foo", "", "Y", "N", "y"]` performs exactly five reads and
returns `"y"`; list membership is exact (the empty string, `"Y"` and
`"N"` are all rejected without normalization) and the empty raw answer
flows through transform and validation like any other string, getting
its own attempt context and transformed entry. -/
theorem concrete_yn_scenario :
    ((main () exQYN ["foo", "", "Y", "N", "y"]).outcome
      = Except.ok "y") ∧
    ((main () exQYN ["foo", "", "Y", "N", "y"]).reads = 5) ∧
    ((main () exQYN ["foo", "", "Y", "N", "y"]).transformed
      = ["foo", "", "Y", "N", "y"]) ∧
    ((main () exQYN ["foo", "", "Y", "N", "y"]).contexts
      = [⟨0, ""⟩, ⟨1, "foo"⟩, ⟨2, ""⟩, ⟨3, "Y"⟩, ⟨4, "N"⟩]) := by
  refine ⟨by decide, by decide, by decide, by decide⟩

/-- Loop lemma: every props value recorded at a generator invocation
during a run of `main` is the props value the run was started with. -/
theorem mainGo_cbProps_eq {P : Type} (props : P) (question : Question P) :
    ∀ (ins : List String) (it : Nat) (prev : String) (x : P),
      x ∈ (mainGo props question it prev ins).cbProps → x = props := by
  intro ins
  induction ins with
  | nil =>
    intro it prev x hx
    simp only [mainGo] at hx
    cases question <;> simp [cbPropsStep] at hx
    exact hx
  | cons raw rest ih =>
    intro it prev x hx
    cases hstep : attemptStep props question it prev raw with
    | error e =>
      simp only [mainGo, hstep] at hx
      cases question <;> simp [cbPropsStep] at hx
      exact hx
    | ok av =>
      obtain ⟨a, v⟩ := av
      cases v with
      | true =>
        simp only [mainGo, hstep] at hx
        cases question <;> simp [cbPropsStep] at hx
        exact hx
      | false =>
        simp only [mainGo, hstep, List.mem_append] at hx
        rcases hx with hx | hx
        · cases question <;> simp [cbPropsStep] at hx
          exact hx
        · exact ih (it + 1) a x hx

/-- C9: within one `ask.scoped` invocation the properties bag is
created by exactly one call to `init`, and the very bag handed to the
scoped block is the one received by every question-generator callback
invoked through the bound ask function inside that block. -/
theorem scoped_props_bag_shared {P R : Type} (init : Unit → P)
    (blockCalls : P → List (Question P × List String))
    (blockOutcome : P → CallbackOutcome R) :
    ((scopedRun init blockCalls blockOutcome).1.count Event.init = 1) ∧
    (∀ r ∈ (scopedRun init blockCalls blockOutcome).2,
      ∀ x ∈ r.cbProps, x = init ()) := by
  constructor
  · simp only [scopedRun, List.count_cons, List.count_append]
    rw [flatten_bound_ask_count _ Event.init (by simp)]
    have hc : (scopedCloseEvents (blockOutcome (init ()))).count
        Event.init = 0 := by
      rw [List.count_eq_zero]
      cases blockOutcome (init ()) with
      | thrown e => simp [scopedCloseEvents, isPromiseResult]
      | returned v => cases v with
        | plain v0 => simp [scopedCloseEvents, isPromiseResult]
        | promise s => simp [scopedCloseEvents, isPromiseResult]
    rw [hc]
    simp
  · intro r hr x hx
    simp only [scopedRun, List.mem_map] at hr
    obtain ⟨c, _, hc⟩ := hr
    subst hc
    exact mainGo_cbProps_eq (init ()) c.1 c.2 0 "" x hx

/-- Witness for C9: in a concrete scoped run over `Nat` props whose
block asks one generator question, the trace holds one init event and
the props recorded at the generator invocation equal the bag built by
`init`. -/
theorem scoped_props_bag_shared_witness :
    ((scopedRun exInit exBlockCalls exBlockOutcome).1.count
      Event.init = 1) ∧ (7 : Nat) = exInit () :=
  ⟨(scoped_props_bag_shared exInit exBlockCalls exBlockOutcome).1,
    (scoped_props_bag_shared exInit exBlockCalls exBlockOutcome).2
      (main 7 exQCb ["a"]) (by simp [scopedRun, exInit, exBlockCalls])
      7 (by decide)⟩

/-- Loop lemma: with a literal question whose accept option is the
empty list, no attempt is ever accepted, so the loop never settles
with an accepted answer. -/
theorem mainGo_empty_accept_never_ok {P : Type} (props : P)
    (qstr : String) (opts : AskOptions) (hacc : opts.accept = .list []) :
    ∀ (ins : List String) (it : Nat) (prev s : String),
      (mainGo props (Question.str qstr opts) it prev ins).outcome
        ≠ Except.ok s := by
  intro ins
  induction ins with
  | nil => intro it prev s h; simp [mainGo] at h
  | cons raw rest ih =>
    intro it prev s h
    cases hstep : attemptStep props (Question.str qstr opts) it prev raw with
    | error e => simp [mainGo, hstep] at h
    | ok av =>
      obtain ⟨a, v⟩ := av
      cases v with
      | false =>
        simp only [mainGo, hstep] at h
        exact ih (it + 1) a s h
      | true =>
        exfalso
        simp only [attemptStep, resolveOpts] at hstep
        cases htr : transform opts ⟨it, prev⟩ raw with
        | error e => rw [htr] at hstep; simp at hstep
        | ok a2 =>
          rw [htr] at hstep
          simp only [hacc, checkAccept, List.contains_nil] at hstep
          simp at hstep

/-- C10: with `accept` the empty list the verdict is false for every
answer — membership in the supplied list is the sole criterion, with no
special treatment of the empty array — so the retry loop can never
terminate through acceptance: against any finite channel it never
settles with an accepted answer. -/
theorem empty_accept_list_never_accepts {P : Type} (props : P)
    (answer qstr : String) (opts : AskOptions) (ins : List String)
    (hacc : opts.accept = .list []) :
    checkAccept (.list []) answer = Except.ok false ∧
    (∀ s : String,
      (main props (Question.str qstr opts) ins).outcome ≠ Except.ok s) := by
  refine ⟨rfl, fun s => ?_⟩
  exact mainGo_empty_accept_never_ok props qstr opts hacc ins 0 "" s

/-- Witness for C10: concretely, the empty accept list rejects `"y"`
and a run against the channel `["a", "b"]` does not settle with the
accepted answer `"a"`. -/
theorem empty_accept_list_never_accepts_witness :
    checkAccept (.list []) "y" = Except.ok false ∧
    (main () (Question.str "Q: " exOptsEmptyList) ["a", "b"]).outcome
      ≠ Except.ok "a" :=
  ⟨(empty_accept_list_never_accepts () "y" "Q: " exOptsEmptyList
      ["a", "b"] rfl).1,
    (empty_accept_list_never_accepts () "y" "Q: " exOptsEmptyList
      ["a", "b"] rfl).2 "a"⟩

end Ask
